import Mathlib

/-!
Shallow embedding of the clock-configuration (src/rcc.rs) and analog-conversion
(src/adc.rs) subsystems of the hk32f0301mxxc hardware-control layer, with proofs
of the specified properties.

Conventions of the embedding:
* machine integers (`u32`, `u16`, `u8`) are `Nat`, with `% 2 ^ w` inserted where
  a narrowing cast or possible wrap occurs in the source;
* a memory-mapped register is a field of an explicit state structure; a
  read-modify-write in the source becomes a functional record update;
* an unbounded spin-wait on a hardware status bit (the hardware is specified to
  converge) is embedded as the state in which the awaited condition holds: the
  loop exits exactly when the polled bit has the awaited value, so the post-loop
  state records that value;
* values deposited by the hardware itself (a conversion result in the data
  register, the factory calibration words) are explicit oracle parameters.
-/

namespace Hal

/-! ## Clock tree: src/rcc.rs -/

/-- Embeds `const HSI: u32 = 48_000_000` (rcc.rs line 46), nominal internal
high-speed oscillator frequency in Hz. -/
def HSI : Nat := 48000000

/-- Embeds `const LSI: u32 = 60_000` (rcc.rs line 47), nominal internal low-speed
oscillator frequency in Hz. -/
def LSI : Nat := 60000

/-- Embeds `enum SysClkSource` (rcc.rs lines 50-55). The `HSE` payload is the
caller-supplied external frequency in Hz (`Hertz` is a `u32` newtype). -/
inductive SysClkSource where
  | HSI : SysClkSource
  | LSI : SysClkSource
  | HSE : Nat → SysClkSource
deriving DecidableEq

/-- Embeds `fn get_freq` (rcc.rs lines 57-65): nominal frequency of the selected
source. -/
def get_freq (c_src : SysClkSource) : Nat :=
  match c_src with
  | SysClkSource.HSE freq => freq
  | SysClkSource.LSI => LSI
  | SysClkSource.HSI => HSI

/-- Embeds `fn set_flash_wait` (rcc.rs lines 128-136): the latency code written to
`FLASH.ACR.LATENCY` for a target frequency (`Hertz` comparison is `u32`
comparison). -/
def set_flash_wait (freq : Nat) : Nat :=
  if freq ≤ 16000000 then 0
  else if freq ≤ 32000000 then 1
  else 2

/-- Embeds `fn hsi_trimming_value_load` (rcc.rs lines 68-82): given the current
`RCC.CR` register word and the factory word at `0x1ffff10c`, returns the new
`RCC.CR` word. If the redundancy check fails the register is not written. -/
def hsi_trimming_value_load (cr hsivalue : Nat) : Nat :=
  let temp := cr &&& 0xffffc003
  if hsivalue &&& 0xFFFF = 0xFFFF - ((hsivalue >>> 16) &&& 0xFFFF) then
    let hsical := (hsivalue &&& 0xFF) >>> 2
    let hsitrim := (hsivalue >>> 8) &&& 0xFF
    (temp ||| (hsitrim <<< 8)) ||| (hsical <<< 2)
  else
    cr

/-- The PMU-side registers touched by `pmu_trimming_value_load`, one field per
memory-mapped word. The unlock/relock writes to `0x4000704c` are collapsed to
the register's final value. -/
structure PmuRegs where
  pwren : Bool     -- RCC.APBENR1.PWREN
  lock : Nat       -- 0x4000704c (write-protection key register)
  bgp : Nat        -- 0x40007070
  ldo_run : Nat    -- 0x40007060
  ldo_lpr : Nat    -- 0x40007064
  lpldo_lpr : Nat  -- 0x4000706C
deriving DecidableEq

/-- Embeds `fn pmu_trimming_value_load` (rcc.rs lines 85-126): effect on the PMU
registers of the three factory words at `0x1ffff114/118/11c`. Each word is
applied only if its redundancy check passes; note the third check compares
byte 1 against the complement of byte 3 (8-bit), unlike the first two
(16-bit halves). -/
def pmu_trimming_value_load (r : PmuRegs) (bgpvalue ldovalue lpldovalue : Nat) :
    PmuRegs :=
  let lbgp := (bgpvalue >>> 8) &&& 0x1F
  let mbgp := bgpvalue &&& 0x1F
  let ldoruntemp := ldovalue &&& 0xff
  let ldolprtemp := (ldovalue >>> 8) &&& 0xff
  let lpldolprtemp := (lpldovalue >>> 8) &&& 0xff
  let r := { r with pwren := true }
  let r :=
    if bgpvalue &&& 0xFFFF = 0xFFFF - ((bgpvalue >>> 16) &&& 0xFFFF) then
      { r with lock := 0xFFFF, bgp := (lbgp <<< 8) ||| mbgp }
    else r
  let r :=
    if ldovalue &&& 0xFFFF = 0xFFFF - ((ldovalue >>> 16) &&& 0xFFFF) then
      { r with lock := 0xFFFF, ldo_run := ldoruntemp, ldo_lpr := ldolprtemp }
    else r
  if (lpldovalue >>> 8) &&& 0xFF = 0xFF - ((lpldovalue >>> 24) &&& 0xFF) then
    { r with lock := 0xFFFF, lpldo_lpr := lpldolprtemp }
  else r

/-- The three oscillators of `enable_clock`. -/
inductive Osc where
  | ext : Osc
  | hsi : Osc
  | lsi : Osc
deriving DecidableEq

/-- One observable register operation performed during `CFGR::freeze`.
`oscWaitReady`/`swsWaitConfirm` are the unbounded spin-waits on the ready flag
and on the `SWS` status field. -/
inductive Ev where
  | hsiTrimLoad : Ev                  -- call of hsi_trimming_value_load
  | pmuTrimLoad : Ev                  -- call of pmu_trimming_value_load
  | extclkSelWrite : Nat → Ev         -- RCC.CFGR4.EXTCLK_SEL
  | oscEnable : Osc → Ev              -- CR.EXTCLKON / CR.HSION / CSR.LSION
  | flitfClkPreWrite : Nat → Ev       -- RCC.CFGR4.FLITFCLK_PRE
  | oscWaitReady : Osc → Ev           -- spin on EXTCLKRDY / HSIRDY / LSIRDY
  | flashLatencyWrite : Nat → Ev      -- FLASH.ACR.LATENCY := set_flash_wait
  | prescalerWrite : Ev               -- CFGR.HPRE := div1, CFGR.PPRE := div1
  | swWrite : Nat → Ev                -- CFGR.SW := sw_to
  | swsWaitConfirm : Nat → Ev         -- spin until CFGR.SWS = sw_to
  | intVecClear : Ev                  -- FLASH.INT_VEC_OFFSET := 0
deriving DecidableEq

/-- The oscillator enabled for a given source selection, following the
`match` in `enable_clock`. -/
def oscOf (c_src : SysClkSource) : Osc :=
  match c_src with
  | SysClkSource.HSE _ => Osc.ext
  | SysClkSource.HSI => Osc.hsi
  | SysClkSource.LSI => Osc.lsi

/-- Embeds `fn enable_clock` (rcc.rs lines 138-178): the sequence of register
operations it performs, in program order, together with the `sw_to` code it
selects (1 for HSE, 0 for HSI, 3 for LSI). -/
def enable_clock (c_src : SysClkSource) : List Ev × Nat :=
  let branch : List Ev × Nat :=
    match c_src with
    | SysClkSource.HSE freq =>
        ([Ev.extclkSelWrite 0, Ev.oscEnable Osc.ext, Ev.oscWaitReady Osc.ext,
          Ev.flashLatencyWrite (set_flash_wait freq)], 1)
    | SysClkSource.HSI =>
        ([Ev.oscEnable Osc.hsi, Ev.flitfClkPreWrite 7, Ev.oscWaitReady Osc.hsi,
          Ev.flashLatencyWrite (set_flash_wait HSI)], 0)
    | SysClkSource.LSI =>
        ([Ev.oscEnable Osc.lsi, Ev.oscWaitReady Osc.lsi,
          Ev.flashLatencyWrite (set_flash_wait LSI)], 3)
  (branch.1 ++ [Ev.prescalerWrite, Ev.swWrite branch.2, Ev.swsWaitConfirm branch.2],
   branch.2)

/-- Embeds `struct Clocks` (rcc.rs lines 229-233): the frozen frequency triple. -/
structure Clocks where
  hclk : Nat
  pclk : Nat
  sysclk : Nat
deriving DecidableEq

/-- Embeds `CFGR::freeze` (rcc.rs lines 204-223): trim loads, then `enable_clock`,
then the interrupt-vector-offset clear, and the returned `Clocks` value. -/
def freeze (c_src : SysClkSource) : List Ev × Clocks :=
  let trace :=
    Ev.hsiTrimLoad :: Ev.pmuTrimLoad :: (enable_clock c_src).1 ++ [Ev.intVecClear]
  let freq := get_freq c_src
  (trace, { hclk := freq, pclk := freq, sysclk := freq })

/-- The event trace of `freeze`. -/
def freezeTrace (c_src : SysClkSource) : List Ev := (freeze c_src).1

/-! Observation predicates on freeze events, used to state the ordering
property. -/

def isHsiTrimEv : Ev → Bool
  | Ev.hsiTrimLoad => true
  | _ => false

def isPmuTrimEv : Ev → Bool
  | Ev.pmuTrimLoad => true
  | _ => false

def isOscEnableEv : Ev → Bool
  | Ev.oscEnable _ => true
  | _ => false

def isOscWaitReadyEv : Ev → Bool
  | Ev.oscWaitReady _ => true
  | _ => false

def isFlashLatencyEv : Ev → Bool
  | Ev.flashLatencyWrite _ => true
  | _ => false

def isSwWriteEv : Ev → Bool
  | Ev.swWrite _ => true
  | _ => false

def isSwsWaitEv : Ev → Bool
  | Ev.swsWaitConfirm _ => true
  | _ => false

def isIntVecClearEv : Ev → Bool
  | Ev.intVecClear => true
  | _ => false

/-! ## Conversion engine: src/adc.rs -/

/-- Embeds `enum AdcSampleTime` (adc.rs lines 55-72). -/
inductive AdcSampleTime where
  | T1 | T7 | T13 | T28 | T41 | T55 | T71 | T239
deriving DecidableEq

/-- Embeds `AdcSampleTime::default` (adc.rs lines 76-78): slowest sampling. -/
def AdcSampleTime.default : AdcSampleTime := AdcSampleTime.T239

/-- Embeds `impl From<AdcSampleTime> for u8` (adc.rs lines 81-94): the `SMP` field
encoding. -/
def sampleTimeBits (val : AdcSampleTime) : Nat :=
  match val with
  | AdcSampleTime.T1 => 0
  | AdcSampleTime.T7 => 1
  | AdcSampleTime.T13 => 2
  | AdcSampleTime.T28 => 3
  | AdcSampleTime.T41 => 4
  | AdcSampleTime.T55 => 5
  | AdcSampleTime.T71 => 6
  | AdcSampleTime.T239 => 7

/-- Embeds `enum AdcAlign` (adc.rs lines 98-110). -/
inductive AdcAlign where
  | Left : AdcAlign
  | Right : AdcAlign
deriving DecidableEq

/-- Embeds `AdcAlign::default` (adc.rs lines 113-115). -/
def AdcAlign.default : AdcAlign := AdcAlign.Right

/-- Embeds `impl From<AdcAlign> for bool` (adc.rs lines 119-126): the `ALIGN` bit. -/
def alignBit (val : AdcAlign) : Bool :=
  match val with
  | AdcAlign.Left => true
  | AdcAlign.Right => false

/-- The ADC register block (the `pac::ADC` fields the driver touches):
control bits of `CR`, status bits of `ISR`, the `VREFEN` bit of `CCR`, and the
channel-select, sample-time, alignment, data and clock-config registers. -/
structure AdcHw where
  aden : Bool      -- CR.ADEN
  adstp : Bool     -- CR.ADSTP
  addis : Bool     -- CR.ADDIS
  adstart : Bool   -- CR.ADSTART
  adrdy : Bool     -- ISR.ADRDY
  eoc : Bool       -- ISR.EOC
  vrefen : Bool    -- CCR.VREFEN
  chselr : Nat     -- CHSELR
  smpr : Nat       -- SMPR.SMP
  align : Bool     -- CFGR1.ALIGN
  dr : Nat         -- DR (written by the hardware at end of conversion)
  cfgr2 : Nat      -- CFGR2
deriving DecidableEq

/-- Embeds `struct Adc` (adc.rs lines 45-49): exclusive register block plus the two
configuration fields. -/
structure Adc where
  rb : AdcHw
  sample_time : AdcSampleTime
  align : AdcAlign
deriving DecidableEq

/-- Embeds `struct StoredConfig(AdcSampleTime, AdcAlign)` (adc.rs line 220). -/
structure StoredConfig where
  fst : AdcSampleTime
  snd : AdcAlign
deriving DecidableEq

/-- Embeds `Adc::save_cfg` (adc.rs lines 239-241). -/
def save_cfg (a : Adc) : StoredConfig :=
  StoredConfig.mk a.sample_time a.align

/-- Embeds `Adc::restore_cfg` (adc.rs lines 244-247). -/
def restore_cfg (a : Adc) (cfg : StoredConfig) : Adc :=
  { a with sample_time := cfg.fst, align := cfg.snd }

/-- Embeds `Adc::default_cfg` (adc.rs lines 251-256): saves the current config, then
resets both fields to their defaults. -/
def default_cfg (a : Adc) : StoredConfig × Adc :=
  let cfg := save_cfg a
  (cfg, { a with sample_time := AdcSampleTime.default, align := AdcAlign.default })

/-- Embeds `Adc::set_sample_time` (adc.rs lines 261-263). -/
def set_sample_time (a : Adc) (t_samp : AdcSampleTime) : Adc :=
  { a with sample_time := t_samp }

/-- Embeds `Adc::set_align` (adc.rs lines 268-270). -/
def set_align (a : Adc) (al : AdcAlign) : Adc :=
  { a with align := al }

/-- Embeds `Adc::max_sample` (adc.rs lines 273-278). -/
def max_sample (a : Adc) : Nat :=
  match a.align with
  | AdcAlign.Left => 65535
  | AdcAlign.Right => (1 <<< 12) - 1

/-- Embeds `Adc::select_clock` (adc.rs lines 289-291): `CFGR2 := 2` (SynClkDiv4). -/
def select_clock (a : Adc) : Adc :=
  { a with rb := { a.rb with cfgr2 := 2 } }

/-- Embeds `Adc::new` (adc.rs lines 228-236). -/
def Adc.new (rb : AdcHw) : Adc :=
  select_clock
    { rb := rb, sample_time := AdcSampleTime.default, align := AdcAlign.default }

/-- Embeds `Adc::power_up` (adc.rs lines 293-299): clear a stale ADRDY flag, set
ADEN, spin until the hardware asserts ADRDY (the loop exits exactly when
ADRDY reads set). -/
def power_up (a : Adc) : Adc :=
  let rb := a.rb
  let rb := if rb.adrdy then { rb with adrdy := false } else rb
  let rb := { rb with aden := true }
  let rb := { rb with adrdy := true }
  { a with rb := rb }

/-- Embeds `Adc::power_down` (adc.rs lines 301-306): set ADSTP, spin until the
hardware clears it (stop complete), set ADDIS, spin until the hardware clears
ADEN (disable complete). The post-loop states record the awaited bit
values. -/
def power_down (a : Adc) : Adc :=
  let rb := { a.rb with adstp := true }
  let rb := { rb with adstp := false }
  let rb := { rb with addis := true }
  let rb := { rb with aden := false }
  { a with rb := rb }

/-- Embeds `Adc::convert` (adc.rs lines 308-324): program CHSELR (one-hot), SMPR and
ALIGN, start, spin until EOC — at which point the hardware has deposited the
conversion result `sample` in DR — read DR as `u16`, and left-shift by 8 under
Left alignment (a `u16` shift, truncating). -/
def convert (a : Adc) (chan : Nat) (sample : Nat) : Adc × Nat :=
  let rb := { a.rb with chselr := (1 <<< chan) % 2 ^ 32 }
  let rb := { rb with smpr := sampleTimeBits a.sample_time }
  let rb := { rb with align := alignBit a.align }
  let rb := { rb with adstart := true }
  let rb := { rb with eoc := true, dr := sample % 2 ^ 32 }
  let res := rb.dr % 2 ^ 16
  let res := if a.align = AdcAlign.Left then (res <<< 8) % 2 ^ 16 else res
  ({ a with rb := rb }, res)

/-- Embeds `OneShot::read for Adc` (adc.rs lines 334-339): power-up, convert on the
pin's channel, power-down; the source always returns `Ok`, so the embedding
returns the pair directly. -/
def read (a : Adc) (chan : Nat) (sample : Nat) : Adc × Nat :=
  let a := power_up a
  let res := convert a chan sample
  let a := power_down res.1
  (a, res.2)

namespace VRef

/-- Embeds `VRef::enable` (adc.rs lines 180-182): set CCR.VREFEN. -/
def enable (a : Adc) : Adc :=
  { a with rb := { a.rb with vrefen := true } }

/-- Embeds `VRef::disable` (adc.rs lines 185-187): clear CCR.VREFEN. -/
def disable (a : Adc) : Adc :=
  { a with rb := { a.rb with vrefen := false } }

/-- Embeds `VRef::is_enabled` (adc.rs lines 190-192). -/
def is_enabled (a : Adc) : Bool :=
  a.rb.vrefen

/-- Embeds `VRef::read_vdda` (adc.rs lines 195-215). `sample` is the raw value the
hardware deposits in DR for the conversion on the internal-reference channel
(channel 8). The final `(4095 * 1200 / vref_val) as u16` divides by zero —
a panic — when the raw value is 0; the embedding returns `none` there (the
register-state effects all precede the division in the source). -/
def read_vdda (a : Adc) (sample : Nat) : Adc × Option Nat :=
  let prev := default_cfg a
  let prev_cfg := prev.1
  let a := prev.2
  let step : Adc × Nat :=
    if is_enabled a then
      read a 8 sample
    else
      let a := enable a
      let ret := read a 8 sample
      (disable ret.1, ret.2)
  let a := restore_cfg step.1 prev_cfg
  let vref_val := step.2
  (a, if vref_val = 0 then none else some ((4095 * 1200 / vref_val) % 2 ^ 16))

end VRef

/-- The declared analog inputs: the seven pin types and the two internal
sensors of the `adc_pins!` invocations (adc.rs lines 140-148 and 160-163). -/
inductive AdcInput where
  | PD5 | PD6 | PC4 | PD3 | PD2 | PD1 | PC6 | Vpmu | VRefInput
deriving DecidableEq

/-- The `Channel<Adc>` implementations generated by `adc_pins!`: the resolved
`u8` channel index of every declared input type. -/
def channel (p : AdcInput) : Nat :=
  match p with
  | AdcInput.PD5 => 0
  | AdcInput.PD6 => 1
  | AdcInput.PC4 => 2
  | AdcInput.PD3 => 3
  | AdcInput.PD2 => 4
  | AdcInput.PD1 => 5
  | AdcInput.PC6 => 6
  | AdcInput.Vpmu => 7
  | AdcInput.VRefInput => 8

/-- All declared input types. -/
def allInputs : List AdcInput :=
  [AdcInput.PD5, AdcInput.PD6, AdcInput.PC4, AdcInput.PD3, AdcInput.PD2,
   AdcInput.PD1, AdcInput.PC6, AdcInput.Vpmu, AdcInput.VRefInput]

/-- A configuration mutation of the engine: one call of `set_sample_time` or
`set_align`. -/
inductive CfgMut where
  | sampleTime : AdcSampleTime → CfgMut
  | alignMode : AdcAlign → CfgMut
deriving DecidableEq

/-- Apply one mutation. -/
def applyMut (a : Adc) (m : CfgMut) : Adc :=
  match m with
  | CfgMut.sampleTime t => set_sample_time a t
  | CfgMut.alignMode al => set_align a al

/-- Apply a sequence of intervening mutations. -/
def applyMuts (a : Adc) (ms : List CfgMut) : Adc :=
  ms.foldl applyMut a

/-! ## Helper lemmas on the redundancy checks -/

/-- For values below `2 ^ n`, XOR equal to the all-ones mask is the same as
being the complement (subtraction from the mask). -/
theorem xor_eq_allones_iff {n a b : Nat} (ha : a < 2 ^ n) (hb : b < 2 ^ n) :
    a ^^^ b = 2 ^ n - 1 ↔ a = 2 ^ n - 1 - b := by
  have hsub : 2 ^ n - 1 - b = 2 ^ n - (b + 1) := by omega
  constructor
  · intro h
    apply Nat.eq_of_testBit_eq
    intro i
    have hx : (a.testBit i ^^ b.testBit i) = decide (i < n) := by
      have h2 := congrArg (fun t => Nat.testBit t i) h
      simp only [Nat.testBit_xor, Nat.testBit_two_pow_sub_one] at h2
      exact h2
    rw [hsub, Nat.testBit_two_pow_sub_succ hb]
    by_cases hi : i < n
    · have hd : decide (i < n) = true := by simpa using hi
      rw [hd, Bool.true_and]
      cases hbi : b.testBit i <;> rw [hbi] at hx <;> simp at hx <;> simp [hx, hd, hi]
    · have hai : a.testBit i = false :=
        Nat.testBit_lt_two_pow
          (lt_of_lt_of_le ha (Nat.pow_le_pow_right (by norm_num) (le_of_not_lt hi)))
      simp [hi, hai]
  · intro h
    subst h
    apply Nat.eq_of_testBit_eq
    intro i
    rw [Nat.testBit_xor, hsub, Nat.testBit_two_pow_sub_succ hb,
      Nat.testBit_two_pow_sub_one]
    by_cases hi : i < n
    · simp [hi]
    · have hbi : b.testBit i = false :=
        Nat.testBit_lt_two_pow
          (lt_of_lt_of_le hb (Nat.pow_le_pow_right (by norm_num) (le_of_not_lt hi)))
      simp [hi, hbi]

theorem and_ffff_lt (w : Nat) : w &&& 0xFFFF < 2 ^ 16 := by
  have h : (0xFFFF : Nat) = 2 ^ 16 - 1 := by norm_num
  rw [h, Nat.and_pow_two_sub_one_eq_mod]
  exact Nat.mod_lt _ (by norm_num)

theorem and_ff_lt (w : Nat) : w &&& 0xFF < 2 ^ 8 := by
  have h : (0xFF : Nat) = 2 ^ 8 - 1 := by norm_num
  rw [h, Nat.and_pow_two_sub_one_eq_mod]
  exact Nat.mod_lt _ (by norm_num)

/-- The 16-bit redundancy check written in the source
(`low half = 0xFFFF - high half`) holds exactly when the payload half XORed
with the complement half is all-ones. -/
theorem check16_iff_xor16 (w : Nat) :
    (w &&& 0xFFFF = 0xFFFF - ((w >>> 16) &&& 0xFFFF)) ↔
    ((w &&& 0xFFFF) ^^^ ((w >>> 16) &&& 0xFFFF) = 0xFFFF) := by
  have h16 : (0xFFFF : Nat) = 2 ^ 16 - 1 := by norm_num
  rw [h16]
  exact (xor_eq_allones_iff (and_ffff_lt w) (and_ffff_lt (w >>> 16))).symm

/-- The 8-bit redundancy check used for the low-power-regulator word
(`byte 1 = 0xFF - byte 3`) holds exactly when byte 1 XORed with byte 3 is
all-ones. -/
theorem check8_iff_xor8 (w : Nat) :
    ((w >>> 8) &&& 0xFF = 0xFF - ((w >>> 24) &&& 0xFF)) ↔
    (((w >>> 8) &&& 0xFF) ^^^ ((w >>> 24) &&& 0xFF) = 0xFF) := by
  have h8 : (0xFF : Nat) = 2 ^ 8 - 1 := by norm_num
  rw [h8]
  exact (xor_eq_allones_iff (and_ff_lt (w >>> 8)) (and_ff_lt (w >>> 24))).symm

/-- The 16-bit half-complement relation implies the 8-bit byte relation the
source actually checks for the low-power-regulator word. -/
theorem xor16_imp_check8 (w : Nat) :
    ((w &&& 0xFFFF) ^^^ ((w >>> 16) &&& 0xFFFF) = 0xFFFF) →
    ((w >>> 8) &&& 0xFF = 0xFF - ((w >>> 24) &&& 0xFF)) := by
  intro h
  rw [← check16_iff_xor16] at h
  have e1 : (0xFFFF : Nat) = 2 ^ 16 - 1 := by norm_num
  have e2 : (0xFF : Nat) = 2 ^ 8 - 1 := by norm_num
  rw [e1, Nat.and_pow_two_sub_one_eq_mod, Nat.and_pow_two_sub_one_eq_mod,
    Nat.shiftRight_eq_div_pow] at h
  rw [e2, Nat.and_pow_two_sub_one_eq_mod, Nat.and_pow_two_sub_one_eq_mod,
    Nat.shiftRight_eq_div_pow, Nat.shiftRight_eq_div_pow]
  norm_num at h ⊢
  have h1 : w / 256 % 256 = w % 65536 / 256 := by omega
  have h2 : w / 16777216 % 256 = w / 65536 % 65536 / 256 := by omega
  omega

/-! Characterizations of the trim-load register effects, one per target
register, read off the branching structure of `pmu_trimming_value_load`. -/

theorem pmu_bgp_char (r : PmuRegs) (b l lp : Nat) :
    (pmu_trimming_value_load r b l lp).bgp =
      if b &&& 0xFFFF = 0xFFFF - ((b >>> 16) &&& 0xFFFF) then
        (((b >>> 8) &&& 0x1F) <<< 8) ||| (b &&& 0x1F)
      else r.bgp := by
  simp only [pmu_trimming_value_load]
  split_ifs <;> rfl

theorem pmu_ldo_run_char (r : PmuRegs) (b l lp : Nat) :
    (pmu_trimming_value_load r b l lp).ldo_run =
      if l &&& 0xFFFF = 0xFFFF - ((l >>> 16) &&& 0xFFFF) then l &&& 0xff
      else r.ldo_run := by
  simp only [pmu_trimming_value_load]
  split_ifs <;> rfl

theorem pmu_ldo_lpr_char (r : PmuRegs) (b l lp : Nat) :
    (pmu_trimming_value_load r b l lp).ldo_lpr =
      if l &&& 0xFFFF = 0xFFFF - ((l >>> 16) &&& 0xFFFF) then (l >>> 8) &&& 0xff
      else r.ldo_lpr := by
  simp only [pmu_trimming_value_load]
  split_ifs <;> rfl

theorem pmu_lpldo_char (r : PmuRegs) (b l lp : Nat) :
    (pmu_trimming_value_load r b l lp).lpldo_lpr =
      if (lp >>> 8) &&& 0xFF = 0xFF - ((lp >>> 24) &&& 0xFF) then
        (lp >>> 8) &&& 0xff
      else r.lpldo_lpr := by
  simp only [pmu_trimming_value_load]
  split_ifs <;> rfl

/-! ## Theorems -/

/-- C1: for every source selection, `freeze` performs its register operations
in strict order: the HSI trim load first, then the PMU trim load, then the
oscillator enable of the chosen source, then the spin-wait on that
oscillator's ready flag, then the flash-latency write — which precedes the
source-select (`SW`) write — then the `SW` write, and finally the spin-wait
until the `SWS` status field reads back the value just written to `SW`,
before any further step (the interrupt-vector-offset clear). Each of these
operations occurs in the trace, the enabled oscillator is the chosen one, and
the awaited `SWS` value equals the written `SW` value. -/
theorem freeze_event_order (c_src : SysClkSource) :
    ((freezeTrace c_src).any isHsiTrimEv = true) ∧
    ((freezeTrace c_src).any isPmuTrimEv = true) ∧
    ((freezeTrace c_src).any isOscEnableEv = true) ∧
    ((freezeTrace c_src).any isOscWaitReadyEv = true) ∧
    ((freezeTrace c_src).any isFlashLatencyEv = true) ∧
    ((freezeTrace c_src).any isSwWriteEv = true) ∧
    ((freezeTrace c_src).any isSwsWaitEv = true) ∧
    ((freezeTrace c_src).any isIntVecClearEv = true) ∧
    ((freezeTrace c_src).findIdx isHsiTrimEv
      < (freezeTrace c_src).findIdx isPmuTrimEv) ∧
    ((freezeTrace c_src).findIdx isPmuTrimEv
      < (freezeTrace c_src).findIdx isOscEnableEv) ∧
    ((freezeTrace c_src).findIdx isOscEnableEv
      < (freezeTrace c_src).findIdx isOscWaitReadyEv) ∧
    ((freezeTrace c_src).findIdx isOscWaitReadyEv
      < (freezeTrace c_src).findIdx isFlashLatencyEv) ∧
    ((freezeTrace c_src).findIdx isFlashLatencyEv
      < (freezeTrace c_src).findIdx isSwWriteEv) ∧
    ((freezeTrace c_src).findIdx isSwWriteEv
      < (freezeTrace c_src).findIdx isSwsWaitEv) ∧
    ((freezeTrace c_src).findIdx isSwsWaitEv
      < (freezeTrace c_src).findIdx isIntVecClearEv) ∧
    (Ev.oscEnable (oscOf c_src) ∈ freezeTrace c_src) ∧
    (Ev.swWrite (enable_clock c_src).2 ∈ freezeTrace c_src) ∧
    (Ev.swsWaitConfirm (enable_clock c_src).2 ∈ freezeTrace c_src) := by
  cases c_src <;>
    exact ⟨rfl, rfl, rfl, rfl, rfl, rfl, rfl, rfl,
      Nat.lt_of_sub_eq_succ rfl, Nat.lt_of_sub_eq_succ rfl,
      Nat.lt_of_sub_eq_succ rfl, Nat.lt_of_sub_eq_succ rfl,
      Nat.lt_of_sub_eq_succ rfl, Nat.lt_of_sub_eq_succ rfl,
      Nat.lt_of_sub_eq_succ rfl,
      by simp [freezeTrace, freeze, enable_clock, oscOf],
      by simp [freezeTrace, freeze, enable_clock],
      by simp [freezeTrace, freeze, enable_clock]⟩

/-- C2: for every source selection, `freeze` returns a `Clocks` value whose
`hclk`, `pclk` and `sysclk` fields are all equal, and equal to the nominal
frequency of the selected source: the fixed constant 48 MHz for the internal
high-speed source, the fixed constant 60 kHz for the internal low-speed
source, and the caller-supplied frequency for the external source. -/
theorem freeze_clocks_eq_source_freq (c_src : SysClkSource) :
    ((freeze c_src).2.hclk = (freeze c_src).2.pclk) ∧
    ((freeze c_src).2.pclk = (freeze c_src).2.sysclk) ∧
    ((freeze c_src).2.sysclk = get_freq c_src) ∧
    (get_freq SysClkSource.HSI = 48000000) ∧
    (get_freq SysClkSource.LSI = 60000) ∧
    (∀ f : Nat, get_freq (SysClkSource.HSE f) = f) :=
  ⟨rfl, rfl, rfl, rfl, rfl, fun _ => rfl⟩

/-- C3: the flash wait-state selector is a monotonic step function of the
target frequency with exact thresholds: latency code 0 for frequencies up to
16 MHz inclusive, code 1 above 16 MHz up to 32 MHz inclusive, and code 2
above 32 MHz; in particular the boundary values 16,000,000 and 32,000,000 map
to codes 0 and 1. -/
theorem set_flash_wait_thresholds (f g : Nat) :
    (f ≤ 16000000 → set_flash_wait f = 0) ∧
    (16000000 < f → f ≤ 32000000 → set_flash_wait f = 1) ∧
    (32000000 < f → set_flash_wait f = 2) ∧
    (f ≤ g → set_flash_wait f ≤ set_flash_wait g) ∧
    (set_flash_wait 16000000 = 0) ∧
    (set_flash_wait 32000000 = 1) := by
  unfold set_flash_wait
  refine ⟨?_, ?_, ?_, ?_, by norm_num, by norm_num⟩ <;> intros <;> split_ifs <;> omega

/-- C5 (counterexample): the claim says a factory word is treated as valid
exactly when its payload half XORed with its complement half is all-ones, and
that a word failing that relation leaves the target trim registers
unmodified. The word `0x5400AB01` fails the half-XOR relation, yet
`pmu_trimming_value_load` applies its low-power-regulator trim: starting from
a zeroed register file, the `0x4000706C` register changes from 0 to `0xAB`,
because the source validates this word by an 8-bit check on byte 1 against
the complement of byte 3, not by the 16-bit half relation. -/
theorem calib_half_xor_counterexample :
    ((0x5400AB01 &&& 0xFFFF) ^^^ ((0x5400AB01 >>> 16) &&& 0xFFFF) ≠ 0xFFFF) ∧
    (PmuRegs.mk false 0 0 0 0 0).lpldo_lpr = 0 ∧
    (pmu_trimming_value_load (PmuRegs.mk false 0 0 0 0 0) 0 0 0x5400AB01).lpldo_lpr
      = 0xAB := by
  refine ⟨by decide, rfl, ?_⟩
  rw [pmu_lpldo_char]
  decide

/-- C5 (amended): the HSI, BGP and LDO factory words are treated as valid
exactly when the payload half XORed with the complement half is all-ones; a
valid word's extracted fields are written into the control registers, and a
word failing the relation is skipped silently, leaving the target trim
registers unmodified, with no error raised. The low-power-regulator word,
however, is validated by the corresponding 8-bit relation on its byte-1
payload and byte-3 complement only — a condition implied by, but strictly
weaker than, the 16-bit half relation. -/
theorem calib_validity_amended (cr w : Nat) (r : PmuRegs) (b l lp : Nat) :
    (((w &&& 0xFFFF) ^^^ ((w >>> 16) &&& 0xFFFF) = 0xFFFF) →
      hsi_trimming_value_load cr w
        = ((cr &&& 0xffffc003) ||| (((w >>> 8) &&& 0xFF) <<< 8))
            ||| (((w &&& 0xFF) >>> 2) <<< 2)) ∧
    (((w &&& 0xFFFF) ^^^ ((w >>> 16) &&& 0xFFFF) ≠ 0xFFFF) →
      hsi_trimming_value_load cr w = cr) ∧
    (((b &&& 0xFFFF) ^^^ ((b >>> 16) &&& 0xFFFF) = 0xFFFF) →
      (pmu_trimming_value_load r b l lp).bgp
        = (((b >>> 8) &&& 0x1F) <<< 8) ||| (b &&& 0x1F)) ∧
    (((b &&& 0xFFFF) ^^^ ((b >>> 16) &&& 0xFFFF) ≠ 0xFFFF) →
      (pmu_trimming_value_load r b l lp).bgp = r.bgp) ∧
    (((l &&& 0xFFFF) ^^^ ((l >>> 16) &&& 0xFFFF) = 0xFFFF) →
      (pmu_trimming_value_load r b l lp).ldo_run = l &&& 0xff ∧
      (pmu_trimming_value_load r b l lp).ldo_lpr = (l >>> 8) &&& 0xff) ∧
    (((l &&& 0xFFFF) ^^^ ((l >>> 16) &&& 0xFFFF) ≠ 0xFFFF) →
      (pmu_trimming_value_load r b l lp).ldo_run = r.ldo_run ∧
      (pmu_trimming_value_load r b l lp).ldo_lpr = r.ldo_lpr) ∧
    ((((lp >>> 8) &&& 0xFF) ^^^ ((lp >>> 24) &&& 0xFF) = 0xFF) →
      (pmu_trimming_value_load r b l lp).lpldo_lpr = (lp >>> 8) &&& 0xff) ∧
    ((((lp >>> 8) &&& 0xFF) ^^^ ((lp >>> 24) &&& 0xFF) ≠ 0xFF) →
      (pmu_trimming_value_load r b l lp).lpldo_lpr = r.lpldo_lpr) ∧
    (((lp &&& 0xFFFF) ^^^ ((lp >>> 16) &&& 0xFFFF) = 0xFFFF) →
      ((lp >>> 8) &&& 0xFF) ^^^ ((lp >>> 24) &&& 0xFF) = 0xFF) := by
  refine ⟨?_, ?_, ?_, ?_, ?_, ?_, ?_, ?_, ?_⟩ <;> intro h
  · simp only [hsi_trimming_value_load]
    rw [if_pos ((check16_iff_xor16 w).mpr h)]
  · simp only [hsi_trimming_value_load]
    rw [if_neg (fun hc => h ((check16_iff_xor16 w).mp hc))]
  · rw [pmu_bgp_char, if_pos ((check16_iff_xor16 b).mpr h)]
  · rw [pmu_bgp_char, if_neg (fun hc => h ((check16_iff_xor16 b).mp hc))]
  · exact ⟨by rw [pmu_ldo_run_char, if_pos ((check16_iff_xor16 l).mpr h)],
      by rw [pmu_ldo_lpr_char, if_pos ((check16_iff_xor16 l).mpr h)]⟩
  · exact ⟨by rw [pmu_ldo_run_char, if_neg (fun hc => h ((check16_iff_xor16 l).mp hc))],
      by rw [pmu_ldo_lpr_char, if_neg (fun hc => h ((check16_iff_xor16 l).mp hc))]⟩
  · rw [pmu_lpldo_char, if_pos ((check8_iff_xor8 lp).mpr h)]
  · rw [pmu_lpldo_char, if_neg (fun hc => h ((check8_iff_xor8 lp).mp hc))]
  · exact (check8_iff_xor8 lp).mp (xor16_imp_check8 lp h)

/-- Witness for the amended C5: the complement-redundant word `0xEDCB1234`
is accepted (HSI trim becomes `0x1234` from a zero control word, BGP becomes
`0x1214`, LDO run/LPR become `0x34`/`0x12`, LPLDO LPR becomes `0x12`), while
the corrupted word `0x12341234` is rejected and leaves every target register
unmodified. -/
theorem calib_validity_amended_witness :
    hsi_trimming_value_load 0 0xEDCB1234 = 0x1234 ∧
    hsi_trimming_value_load 5 0x12341234 = 5 ∧
    (pmu_trimming_value_load (PmuRegs.mk false 0 0 0 0 0)
        0xEDCB1234 0xEDCB1234 0xEDCB1234).bgp = 0x1214 ∧
    (pmu_trimming_value_load (PmuRegs.mk false 0 0 0 0 0)
        0xEDCB1234 0xEDCB1234 0xEDCB1234).ldo_run = 0x34 ∧
    (pmu_trimming_value_load (PmuRegs.mk false 0 0 0 0 0)
        0xEDCB1234 0xEDCB1234 0xEDCB1234).ldo_lpr = 0x12 ∧
    (pmu_trimming_value_load (PmuRegs.mk false 0 0 0 0 0)
        0xEDCB1234 0xEDCB1234 0xEDCB1234).lpldo_lpr = 0x12 ∧
    (pmu_trimming_value_load (PmuRegs.mk false 0 0 0 0 0)
        0x12341234 0x12341234 0x12341234).bgp = 0 ∧
    (pmu_trimming_value_load (PmuRegs.mk false 0 0 0 0 0)
        0x12341234 0x12341234 0x12341234).lpldo_lpr = 0 :=
  ⟨((calib_validity_amended 0 0xEDCB1234 (PmuRegs.mk false 0 0 0 0 0)
      0xEDCB1234 0xEDCB1234 0xEDCB1234).1 (by decide)).trans (by decide),
   ((calib_validity_amended 5 0x12341234 (PmuRegs.mk false 0 0 0 0 0)
      0x12341234 0x12341234 0x12341234).2.1 (by decide)),
   ((calib_validity_amended 0 0xEDCB1234 (PmuRegs.mk false 0 0 0 0 0)
      0xEDCB1234 0xEDCB1234 0xEDCB1234).2.2.1 (by decide)).trans (by decide),
   (((calib_validity_amended 0 0xEDCB1234 (PmuRegs.mk false 0 0 0 0 0)
      0xEDCB1234 0xEDCB1234 0xEDCB1234).2.2.2.2.1 (by decide)).1).trans (by decide),
   (((calib_validity_amended 0 0xEDCB1234 (PmuRegs.mk false 0 0 0 0 0)
      0xEDCB1234 0xEDCB1234 0xEDCB1234).2.2.2.2.1 (by decide)).2).trans (by decide),
   ((calib_validity_amended 0 0xEDCB1234 (PmuRegs.mk false 0 0 0 0 0)
      0xEDCB1234 0xEDCB1234 0xEDCB1234).2.2.2.2.2.2.1 (by decide)).trans (by decide),
   ((calib_validity_amended 0 0x12341234 (PmuRegs.mk false 0 0 0 0 0)
      0x12341234 0x12341234 0x12341234).2.2.2.1 (by decide)),
   ((calib_validity_amended 0 0x12341234 (PmuRegs.mk false 0 0 0 0 0)
      0x12341234 0x12341234 0x12341234).2.2.2.2.2.2.2.1 (by decide))⟩

/-- Witness for C3 at the boundary frequencies: 16 MHz gets code 0, a value
just above gets code 1, 32 MHz gets code 1, a value just above gets code 2,
and monotonicity holds across the 16 MHz boundary. -/
theorem set_flash_wait_thresholds_witness :
    set_flash_wait 16000000 = 0 ∧ set_flash_wait 16000001 = 1 ∧
    set_flash_wait 32000000 = 1 ∧ set_flash_wait 32000001 = 2 ∧
    set_flash_wait 16000000 ≤ set_flash_wait 16000001 :=
  ⟨(set_flash_wait_thresholds 16000000 0).1 (by norm_num),
   (set_flash_wait_thresholds 16000001 0).2.1 (by norm_num) (by norm_num),
   (set_flash_wait_thresholds 32000000 0).2.1 (by norm_num) (by norm_num),
   (set_flash_wait_thresholds 32000001 0).2.2.1 (by norm_num),
   (set_flash_wait_thresholds 16000000 16000001).2.2.2.1 (by norm_num)⟩

/-- C4: every `read` leaves the ADC powered down before returning: the
enable bit (`ADEN`) is clear, the stop request (`ADSTP`) has been cleared by
the completed stop sequence, and the disable request (`ADDIS`) was issued —
and the same holds when the same engine immediately performs a second read,
on any channel and for any conversion results. -/
theorem read_powers_down (a : Adc) (chan sample chan2 sample2 : Nat) :
    ((read a chan sample).1.rb.aden = false) ∧
    ((read a chan sample).1.rb.adstp = false) ∧
    ((read a chan sample).1.rb.addis = true) ∧
    ((read (read a chan sample).1 chan2 sample2).1.rb.aden = false) ∧
    ((read (read a chan sample).1 chan2 sample2).1.rb.adstp = false) ∧
    ((read (read a chan sample).1 chan2 sample2).1.rb.addis = true) :=
  ⟨rfl, rfl, rfl, rfl, rfl, rfl⟩

/-- Value of `read_vdda` as a function of the raw conversion result the
hardware deposits for the internal-reference channel: the `u16` truncation of
`4095 * 1200 / raw`, or a panic (`none`) when the truncated raw value is
zero. -/
theorem read_vdda_val (a : Adc) (sample : Nat) :
    (VRef.read_vdda a sample).2 =
      if sample % 2 ^ 16 = 0 then none
      else some ((4095 * 1200 / (sample % 2 ^ 16)) % 2 ^ 16) := by
  have hmod : sample % 4294967296 % 65536 = sample % 65536 := by omega
  cases h : a.rb.vrefen <;>
    simp [VRef.read_vdda, VRef.is_enabled, VRef.enable, VRef.disable,
      default_cfg, save_cfg, restore_cfg, read, power_up, power_down, convert,
      AdcAlign.default, AdcSampleTime.default, h, hmod]

/-- C6 (counterexample): the claim says `read_vdda` returns exactly
`4095 * 1200 / rawValue` for every raw conversion value. At raw value 1 the
source computes `(4095 * 1200 / 1) as u16`, truncating 4,914,000 to 64,336,
so the returned value is not the exact quotient. -/
theorem read_vdda_exact_counterexample :
    (VRef.read_vdda
        (Adc.new (AdcHw.mk false false false false false false false 0 0 false 0 0))
        1).2 = some 64336 ∧
    4095 * 1200 / 1 = 4914000 ∧ (64336 : Nat) ≠ 4914000 := by
  refine ⟨?_, by norm_num, by norm_num⟩
  rw [read_vdda_val]
  decide

/-- C6 (amended): for every engine state and every raw conversion value
`raw` with `75 ≤ raw < 2 ^ 16`, `read_vdda` returns exactly
`4095 * 1200 / raw` (integer division); the bounds make the final `u16` cast
the identity. In particular raw value 1500 yields 3276 millivolts. (Below
75 the quotient exceeds 65,535 and is truncated; at 0 the source panics on
division by zero.) -/
theorem read_vdda_formula_amended (a : Adc) (raw : Nat)
    (h75 : 75 ≤ raw) (hlt : raw < 2 ^ 16) :
    (VRef.read_vdda a raw).2 = some (4095 * 1200 / raw) := by
  rw [read_vdda_val]
  have h1 : raw % 2 ^ 16 = raw := Nat.mod_eq_of_lt hlt
  rw [h1, if_neg (by omega)]
  congr 1
  apply Nat.mod_eq_of_lt
  have h2 : 4095 * 1200 / raw ≤ 4095 * 1200 / 75 :=
    Nat.div_le_div_left h75 (by norm_num)
  exact lt_of_le_of_lt h2 (by norm_num)

/-- Witness for the amended C6: on a freshly constructed engine, the raw
conversion value 1500 yields exactly 3276 millivolts. -/
theorem read_vdda_formula_amended_witness :
    (VRef.read_vdda
        (Adc.new (AdcHw.mk false false false false false false false 0 0 false 0 0))
        1500).2 = some 3276 :=
  (read_vdda_formula_amended
      (Adc.new (AdcHw.mk false false false false false false false 0 0 false 0 0))
      1500 (by norm_num) (by norm_num)).trans (by norm_num)

/-- C7: `save_cfg` followed by `restore_cfg` of the saved snapshot restores
the engine's sample-time and alignment exactly, for every engine state and
every sequence of intervening `set_sample_time`/`set_align` mutations. -/
theorem save_restore_roundtrip (a : Adc) (ms : List CfgMut) :
    ((restore_cfg (applyMuts a ms) (save_cfg a)).sample_time = a.sample_time) ∧
    ((restore_cfg (applyMuts a ms) (save_cfg a)).align = a.align) :=
  ⟨rfl, rfl⟩

/-- C8: `read_vdda` never permanently perturbs the engine: for every starting
engine state and every starting reference-enable state, after it returns the
sample-time and alignment equal their values before the call, and the
internal reference's enable bit equals its value before the call. -/
theorem read_vdda_frame (a : Adc) (sample : Nat) :
    ((VRef.read_vdda a sample).1.sample_time = a.sample_time) ∧
    ((VRef.read_vdda a sample).1.align = a.align) ∧
    ((VRef.read_vdda a sample).1.rb.vrefen = a.rb.vrefen) := by
  refine ⟨rfl, rfl, ?_⟩
  cases h : a.rb.vrefen <;>
    simp [VRef.read_vdda, VRef.is_enabled, VRef.enable, VRef.disable,
      default_cfg, save_cfg, restore_cfg, read, power_up, power_down, convert, h,
      apply_ite]

/-- C9: the channel identity mapping is injective over all declared input
types: the list of all declared inputs is exhaustive, the collected resolved
channel indices are pairwise distinct, and each lies within 0–8. -/
theorem channel_map_injective :
    (∀ x : AdcInput, x ∈ allInputs) ∧
    (allInputs.map channel).Nodup ∧
    ((allInputs.map channel).all (fun c => c ≤ 8) = true) := by
  refine ⟨fun x => ?_, by decide, by decide⟩
  cases x <;> decide

/-- C10: the conversion inside `read_vdda` always executes with the engine
reset to its default configuration: for every caller-chosen engine state, the
sample-time register was programmed with the `T239` (slowest) encoding and
the alignment register bit with the `Right` encoding by the inner conversion,
and the value used in the formula is the right-aligned (unshifted) 16-bit
truncation of the raw sample, independent of the `AlignMode` set at call
time. -/
theorem read_vdda_uses_default_cfg (a : Adc) (sample : Nat) :
    ((VRef.read_vdda a sample).1.rb.smpr = sampleTimeBits AdcSampleTime.T239) ∧
    ((VRef.read_vdda a sample).1.rb.align = alignBit AdcAlign.Right) ∧
    ((VRef.read_vdda a sample).2 =
      if sample % 2 ^ 16 = 0 then none
      else some ((4095 * 1200 / (sample % 2 ^ 16)) % 2 ^ 16)) := by
  refine ⟨?_, ?_, read_vdda_val a sample⟩ <;>
    (cases h : a.rb.vrefen <;>
      simp [VRef.read_vdda, VRef.is_enabled, VRef.enable, VRef.disable,
        default_cfg, save_cfg, restore_cfg, read, power_up, power_down, convert,
        sampleTimeBits, alignBit, AdcAlign.default, AdcSampleTime.default, h])

end Hal
